import Mathlib

/-!
A verification development for ferium, a command-line mod manager.
The visible source fragment is the CLI declaration surface (`src/cli.rs`);
the resolution & upgrade engine is modelled from the specification, which
describes it component by component (Platform Adapter, Compatibility
Filter, Resolver, Installer, Profile Store).
-/

namespace Ferium

/-- Modelled from the spec: the mod-loader enum (`libium::config::structs::ModLoader`
is not in the visible fragment); the spec says "enum: one of a fixed small
set of loader kinds". -/
inductive ModLoader
  | quilt
  | fabric
  | forge
  | neoforge
deriving DecidableEq, Repr

/-- Modelled from the spec: per-mod override flags
(`skip_game_version_check`, `skip_loader_check`) of §3 "Mod". -/
structure Overrides where
  skip_game_version_check : Bool
  skip_loader_check : Bool
deriving DecidableEq, Repr

/-- Modelled from the spec: the profile constraints the Compatibility
Filter checks against (`game_version`, `mod_loader` of §3 "Profile"). -/
structure Constraints where
  game_version : String
  mod_loader : ModLoader
deriving DecidableEq, Repr

/-- Modelled from the spec: §3 "CandidateFile" — a platform-reported
artifact: version label, declared compatible game versions, declared
compatible loaders, download reference, dependency references,
publication timestamp; `release_order` is the platform's own declared
release ordering used by the Resolver's tie-break (§4.3 step 4). -/
structure CandidateFile where
  version_label : String
  game_versions : List String
  loaders : List ModLoader
  download_ref : Nat
  dependencies : List Nat
  timestamp : Nat
  release_order : Nat
deriving DecidableEq, Repr

/-- Modelled from the spec: §4.2 Compatibility Filter, the pure function
`is_compatible(file, profile_constraints, mod_overrides) -> bool`: unless
skipped, the file must declare the profile's game version, and unless
skipped the profile's mod loader. -/
def is_compatible (file : CandidateFile) (c : Constraints) (o : Overrides) : Bool :=
  (o.skip_game_version_check || file.game_versions.contains c.game_version)
    && (o.skip_loader_check || file.loaders.contains c.mod_loader)

/-- Modelled from the spec: §4.3 step 4's selection order — file `a` beats
file `b` when `a`'s publication timestamp is later, or the timestamps are
equal and `a` is later in the platform's own declared release ordering. -/
def beats (a b : CandidateFile) : Bool :=
  decide (b.timestamp < a.timestamp)
    || (decide (a.timestamp = b.timestamp)
          && decide (b.release_order < a.release_order))

/-- The non-strict counterpart of `beats`: `a` is published no later than
`b` (lexicographically on timestamp, then declared release ordering). -/
def keyLE (a b : CandidateFile) : Prop :=
  a.timestamp < b.timestamp
    ∨ (a.timestamp = b.timestamp ∧ a.release_order ≤ b.release_order)

/-- Two candidate files with the same publication timestamp and the same
position in the platform's declared release ordering. -/
def sameKey (a b : CandidateFile) : Prop :=
  a.timestamp = b.timestamp ∧ a.release_order = b.release_order

/-- Modelled from the spec: §4.3 step 4 — scan the candidate list keeping
the current winner, replacing it whenever a later candidate beats it. -/
def pickBest (acc : CandidateFile) : List CandidateFile → CandidateFile
  | [] => acc
  | f :: rest => pickBest (if beats f acc then f else acc) rest

/-- Modelled from the spec: §4.3 steps 3–4 — the Resolver's selection from
a (filtered) candidate list: `none` on the empty list, otherwise the
candidate latest in `(timestamp, declared release order)`. -/
def selectBest : List CandidateFile → Option CandidateFile
  | [] => none
  | f :: rest => some (pickBest f rest)

inductive ResolutionResult
  | resolved (file : CandidateFile)
  | incompatible
  | notFound
  | platformError (detail : String)
deriving DecidableEq, Repr

instance (a b : CandidateFile) : Decidable (sameKey a b) := by
  unfold sameKey
  infer_instance

/-- Modelled from the spec: §4.3 steps 2–5 — filter the candidates through
the Compatibility Filter; if the filtered set is empty report
`Incompatible`, else `Resolved` of the selected latest file. -/
def resolve (candidates : List CandidateFile) (c : Constraints) (o : Overrides) :
    ResolutionResult :=
  match selectBest (candidates.filter (is_compatible · c o)) with
  | none => .incompatible
  | some f => .resolved f

/-- Modelled from the spec: §4.1 — the outcome of the Platform Adapter's
`list_candidates` call for one mod, as the Resolver sees it (the adapter
itself is an external collaborator). -/
inductive FetchResult
  | ok (files : List CandidateFile)
  | err (detail : String)
deriving DecidableEq, Repr

/-- Modelled from the spec: one entry of the profile's mod list together
with the platform response obtained for it during this run. -/
structure ModEntry where
  overrides : Overrides
  fetch : FetchResult
deriving DecidableEq, Repr

/-- Modelled from the spec: §4.3 step 1 — on a platform failure record
that outcome and continue; otherwise resolve from the listed candidates. -/
def resolveMod (c : Constraints) (m : ModEntry) : ResolutionResult :=
  match m.fetch with
  | .err d => .platformError d
  | .ok files => resolve files c m.overrides

/-- Modelled from the spec: §4.3 — each mod of the batch is processed
independently; the batch never aborts, every mod gets an outcome. -/
def runBatch (c : Constraints) (mods : List ModEntry) : List ResolutionResult :=
  mods.map (resolveMod c)

def isPlatformError : ResolutionResult → Bool
  | .platformError _ => true
  | _ => false

def isResolvedOutcome : ResolutionResult → Bool
  | .resolved _ => true
  | _ => false

def isErr : FetchResult → Bool
  | .err _ => true
  | .ok _ => false

/-- A concrete healthy Fabric candidate used by witnesses below. -/
def exFileA : CandidateFile :=
  { version_label := "1.0", game_versions := ["1.20.1"],
    loaders := [ModLoader.fabric], download_ref := 1,
    dependencies := [], timestamp := 5, release_order := 0 }

/-- A second concrete healthy Fabric candidate used by witnesses below. -/
def exFileC : CandidateFile :=
  { version_label := "3.0", game_versions := ["1.20.1"],
    loaders := [ModLoader.fabric], download_ref := 3,
    dependencies := [], timestamp := 7, release_order := 0 }

/-- Overrides with neither check skipped. -/
def noSkip : Overrides :=
  { skip_game_version_check := false, skip_loader_check := false }

/-- Concrete profile constraints: game version 1.20.1 on Fabric. -/
def exConstraints : Constraints :=
  { game_version := "1.20.1", mod_loader := ModLoader.fabric }

/-- A three-mod batch: two healthy mods and one failed platform call. -/
def exBatch : List ModEntry :=
  [{ overrides := noSkip, fetch := .ok [exFileA] },
   { overrides := noSkip, fetch := .err ("rate limited") },
   { overrides := noSkip, fetch := .ok [exFileC] }]

/-- Modelled from the spec: §4.4/§6 — the Installer's view of the output
directory (the Installer itself is not in the visible fragment): the files
present (name paired with content bytes) and the tool's own manifest of
the file names it installed in the prior run. -/
structure DirState where
  files : List (String × List Nat)
  manifest : List String
deriving DecidableEq, Repr

/-- Modelled from the spec: a resolved artifact to install — target file
name and its content bytes. -/
structure Artifact where
  name : String
  bytes : List Nat
deriving DecidableEq, Repr

/-- Modelled from the spec: §4.4 steps 3–4 — write every resolved file
into the output directory (replacing an existing file of the same name),
then remove every file recorded in the previous run's manifest that is
not part of the current resolved set; files the tool did not create are
not removed. The new manifest records exactly the installed names, and
the run reports the resolved file names. -/
def upgradeRun (resolved : List Artifact) (s : DirState) : DirState × List String :=
  let names := resolved.map (·.name)
  let afterWrite :=
    s.files.filter (fun p => !names.contains p.1)
      ++ resolved.map (fun a => (a.name, a.bytes))
  let afterClean :=
    afterWrite.filter (fun p => names.contains p.1 || !s.manifest.contains p.1)
  ({ files := afterClean, manifest := names }, names)

/-- The §8 stale-cleanup scenario: a prior install of `mod-1.0.jar`
recorded in the manifest, plus a user file the tool did not create. -/
def exOldDir : DirState :=
  { files := [("mod-1.0.jar", [1]), ("user-config.txt", [9])],
    manifest := ["mod-1.0.jar"] }

/-- The §8 scenario's newly resolved artifact `mod-2.0.jar`. -/
def exNewArtifact : Artifact := { name := "mod-2.0.jar", bytes := [2] }

/-- Modelled from the spec: §3 "Profile" — name, game version, mod
loader, output directory, and the ordered mod list (identifiers). -/
structure Profile where
  name : String
  game_version : String
  mod_loader : ModLoader
  output_dir : String
  mods : List String
deriving DecidableEq, Repr

/-- Modelled from the spec: §7 — the store-level error taxonomy. -/
inductive StoreError
  | notFound
  | lastRemaining
deriving DecidableEq, Repr

/-- Modelled from the spec: §4.5 — the Profile Store: the named profile
collection and the "active" pointer. -/
structure Store where
  profiles : List Profile
  active : String
deriving DecidableEq, Repr

/-- Modelled from the spec: §4.5 `switch(name)` — fails with `NotFound`
if the name is absent, else repoints the active profile. -/
def switch (name : String) (s : Store) : Except StoreError Store :=
  if s.profiles.any (fun p => p.name == name) then
    .ok { s with active := name }
  else
    .error .notFound

/-- Modelled from the spec: §4.5 `create` — add a new profile to the
collection. -/
def create (p : Profile) (s : Store) : Store :=
  { s with profiles := s.profiles ++ [p] }

/-- Modelled from the spec: §4.5 `delete` — fails with `NotFound` when
the name is absent and with `LastRemaining` when it names the last
remaining profile (at least one profile must always exist); otherwise the
named profile is removed. -/
def delete (name : String) (s : Store) : Except StoreError Store :=
  if s.profiles.any (fun p => p.name == name) then
    if s.profiles.length == 1 then
      .error .lastRemaining
    else
      .ok { s with profiles := s.profiles.eraseP (fun p => p.name == name) }
  else
    .error .notFound

/-- Modelled from the spec: a failing store operation leaves the store as
it was; `try_delete` surfaces the error alongside the (possibly
unchanged) store. -/
def try_delete (name : String) (s : Store) : Store × Option StoreError :=
  match delete name s with
  | .ok s' => (s', none)
  | .error e => (s, some e)

/-- Modelled from the spec: §4.5 `configure` together with
`ProfileSubCommands::Configure` of `src/cli.rs` — a partial-field update
of one profile: each `none` argument leaves that field unchanged; the mod
list is not an argument and is never changed. -/
def configure_profile (p : Profile) (game_version : Option String)
    (mod_loader : Option ModLoader) (name : Option String)
    (output_dir : Option String) : Profile :=
  { p with
    game_version := game_version.getD p.game_version
    mod_loader := mod_loader.getD p.mod_loader
    name := name.getD p.name
    output_dir := output_dir.getD p.output_dir }

/-- Modelled from the spec: §4.5 — store-level `configure` applies the
partial update to the active profile. -/
def configure_store (s : Store) (gv : Option String) (ml : Option ModLoader)
    (nm : Option String) (od : Option String) : Store :=
  { s with profiles := s.profiles.map (fun p =>
      if p.name == s.active then configure_profile p gv ml nm od else p) }

/-- A concrete profile named `A`, used by store witnesses. -/
def exProfileA : Profile :=
  { name := "A", game_version := "1.20.1", mod_loader := ModLoader.fabric,
    output_dir := "mods", mods := ["sodium"] }

/-- A concrete profile named `B`, used by store witnesses. -/
def exProfileB : Profile :=
  { name := "B", game_version := "1.19.2", mod_loader := ModLoader.forge,
    output_dir := "mods-b", mods := [] }

/-- A store holding only profile `A`. -/
def exStore1 : Store := { profiles := [exProfileA], active := "A" }

/-- A store holding profiles `A` and `B`. -/
def exStore2 : Store := { profiles := [exProfileA, exProfileB], active := "A" }

/-- Modelled from the spec: §5 — each per-mod outcome is tagged with the
index of its mod in the profile's stored order before being handed to the
concurrent workers. -/
def tagWithIndex {α : Type} (results : List α) : List (Nat × α) :=
  results.enum

/-- Modelled from the spec: §5 — the final report is assembled by looking
up each canonical index among the completed (arbitrarily ordered) tagged
outcomes: "results are collected and then sorted back into canonical
order". -/
def collectInOrder {α : Type} (completed : List (Nat × α)) (n : Nat) : List α :=
  (List.range n).filterMap
    (fun i => (completed.find? (fun q => q.1 == i)).map (·.2))

/-- From `src/cli.rs`: the `modpack` subcommands (`ModpackSubCommands`). -/
inductive ModpackSubCommands
  | add (identifier : String) (output_dir : Option String)
      (install_overrides : Option Bool)
  | configure (output_dir : Option String) (install_overrides : Option Bool)
  | delete (modpack_name : Option String)
  | list
  | switch (modpack_name : Option String)
  | upgrade
deriving DecidableEq, Repr

/-- From `src/cli.rs`: the `profile` subcommands (`ProfileSubCommands`).
The Rust field `import` on `Create` has type `Option<Option<String>>`; it
is called `import_from` here because its Rust name is reserved in Lean. -/
inductive ProfileSubCommands
  | configure (game_version : Option String) (mod_loader : Option ModLoader)
      (name : Option String) (output_dir : Option String)
  | create (import_from : Option (Option String))
      (game_version : Option String) (mod_loader : Option ModLoader)
      (name : Option String) (output_dir : Option String)
  | delete (profile_name : Option String)
  | list
  | switch (profile_name : Option String)
deriving DecidableEq, Repr

/-- From `src/cli.rs`: the top-level subcommands (`SubCommands`). -/
inductive SubCommands
  | add (identifier : String) (dont_check_game_version : Bool)
      (dont_check_mod_loader : Bool)
  | complete (shell : String)
  | list (verbose : Bool) (markdown : Bool)
  | modpack (subcommand : ModpackSubCommands)
  | profile (subcommand : ProfileSubCommands)
  | remove (mod_names : List String)
  | upgrade
deriving DecidableEq, Repr

/-- Modelled from the spec: clap's parsing of the `--import` flag of
`profile create` (the `import: Option<Option<String>>` field of
`ProfileSubCommands::Create` in `src/cli.rs`, declared
`#[clap(long, short)]`) — an absent flag parses to `None`, a bare flag to
`Some(None)` (import source to be chosen interactively), and a flag with
a value to `Some(Some(name))`; all three surface shapes are accepted. -/
def parseImportFlag : List String → Option (Option (Option String))
  | [] => some none
  | ["--import"] => some (some none)
  | ["--import", name] => some (some (some name))
  | _ => none

/-- Modelled from the spec: clap's parsing of the `remove` subcommand
(the positional `mod_names: Vec<String>` of `SubCommands::Remove` in
`src/cli.rs`, which carries no arity attribute) — `remove` followed by
any number of names, including none, is accepted, the names carried
through verbatim. -/
def parseRemoveCmd : List String → Option SubCommands
  | "remove" :: names => some (SubCommands.remove names)
  | _ => none

/-- C2: `is_compatible` is monotonic in the override flags: if a file is
compatible under some override flags, it stays compatible when
`skip_game_version_check` or `skip_loader_check` (or both) is additionally
set to true; hence skipping a check can only enlarge the compatible subset
of any candidate set. -/
theorem is_compatible_monotone (c : Constraints) (o o' : Overrides)
    (hg : o.skip_game_version_check = true → o'.skip_game_version_check = true)
    (hl : o.skip_loader_check = true → o'.skip_loader_check = true) :
    (∀ file : CandidateFile,
        is_compatible file c o = true → is_compatible file c o' = true) ∧
      ∀ files : List CandidateFile,
        (files.filter (is_compatible · c o)).Subset
          (files.filter (is_compatible · c o')) := by
  have mono : ∀ file : CandidateFile,
      is_compatible file c o = true → is_compatible file c o' = true := by
    intro file h
    unfold is_compatible at h ⊢
    rcases Bool.and_eq_true_iff.mp h with ⟨h1, h2⟩
    apply Bool.and_eq_true_iff.mpr
    constructor
    · rcases Bool.or_eq_true_iff.mp h1 with hs | hm
      · exact Bool.or_eq_true_iff.mpr (Or.inl (hg hs))
      · exact Bool.or_eq_true_iff.mpr (Or.inr hm)
    · rcases Bool.or_eq_true_iff.mp h2 with hs | hm
      · exact Bool.or_eq_true_iff.mpr (Or.inl (hl hs))
      · exact Bool.or_eq_true_iff.mpr (Or.inr hm)
  refine ⟨mono, ?_⟩
  intro files file hmem
  rcases List.mem_filter.mp hmem with ⟨hin, hok⟩
  exact List.mem_filter.mpr ⟨hin, mono file hok⟩

/-- Witness for C2 at a concrete file, constraint set and override pair:
a file compatible with the loader check skipped stays compatible when the
game-version check is skipped as well. -/
theorem is_compatible_monotone_witness :
    is_compatible
        { version_label := "1.0", game_versions := ["1.20.1"],
          loaders := [ModLoader.forge], download_ref := 0,
          dependencies := [], timestamp := 5, release_order := 0 }
        { game_version := "1.20.1", mod_loader := ModLoader.fabric }
        { skip_game_version_check := true, skip_loader_check := true } = true :=
  (is_compatible_monotone
      { game_version := "1.20.1", mod_loader := ModLoader.fabric }
      { skip_game_version_check := false, skip_loader_check := true }
      { skip_game_version_check := true, skip_loader_check := true }
      (fun _ => rfl) (fun h => h)).1
    { version_label := "1.0", game_versions := ["1.20.1"],
      loaders := [ModLoader.forge], download_ref := 0,
      dependencies := [], timestamp := 5, release_order := 0 }
    (by decide)

theorem beats_iff (a b : CandidateFile) :
    beats a b = true ↔
      b.timestamp < a.timestamp
        ∨ (a.timestamp = b.timestamp ∧ b.release_order < a.release_order) := by
  simp [beats]

theorem keyLE_of_beats {a b : CandidateFile} (h : beats a b = true) : keyLE b a := by
  rcases (beats_iff a b).mp h with h1 | ⟨h1, h2⟩
  · exact Or.inl h1
  · exact Or.inr ⟨h1.symm, Nat.le_of_lt h2⟩

theorem keyLE_of_not_beats {a b : CandidateFile} (h : beats a b = false) : keyLE a b := by
  have h' := (beats_iff a b).not.mp (by simp [h])
  unfold keyLE
  omega

theorem keyLE_trans {a b c : CandidateFile} (h1 : keyLE a b) (h2 : keyLE b c) :
    keyLE a c := by
  unfold keyLE at h1 h2 ⊢
  omega

theorem sameKey_of_keyLE_antisymm {a b : CandidateFile}
    (h1 : keyLE a b) (h2 : keyLE b a) : sameKey a b := by
  unfold keyLE at h1 h2
  exact ⟨by omega, by omega⟩

theorem sameKey_symmetric : Symmetric (fun a b : CandidateFile => ¬ sameKey a b) := by
  intro a b h hc
  exact h ⟨hc.1.symm, hc.2.symm⟩

theorem pickBest_spec (acc : CandidateFile) (l : List CandidateFile) :
    pickBest acc l ∈ acc :: l
      ∧ keyLE acc (pickBest acc l)
      ∧ ∀ x ∈ l, keyLE x (pickBest acc l) := by
  induction l generalizing acc with
  | nil =>
    refine ⟨List.mem_singleton.mpr rfl, Or.inr ⟨rfl, Nat.le_refl _⟩, ?_⟩
    intro x hx
    exact absurd hx (List.not_mem_nil x)
  | cons f rest ih =>
    by_cases hb : beats f acc = true
    · have ih' := ih f
      rw [pickBest, if_pos hb]
      refine ⟨?_, ?_, ?_⟩
      · rcases List.mem_cons.mp ih'.1 with h | h
        · rw [h]
          exact List.mem_cons_of_mem _ (List.mem_cons_self _ _)
        · exact List.mem_cons_of_mem _ (List.mem_cons_of_mem _ h)
      · exact keyLE_trans (keyLE_of_beats hb) ih'.2.1
      · intro x hx
        rcases List.mem_cons.mp hx with rfl | hx
        · exact ih'.2.1
        · exact ih'.2.2 x hx
    · have hb' : beats f acc = false := Bool.eq_false_iff.mpr hb
      have ih' := ih acc
      rw [pickBest, if_neg hb]
      refine ⟨?_, ih'.2.1, ?_⟩
      · rcases List.mem_cons.mp ih'.1 with h | h
        · exact List.mem_cons.mpr (Or.inl h)
        · exact List.mem_cons_of_mem _ (List.mem_cons_of_mem _ h)
      · intro x hx
        rcases List.mem_cons.mp hx with rfl | hx
        · exact keyLE_trans (keyLE_of_not_beats hb') ih'.2.1
        · exact ih'.2.2 x hx

theorem selectBest_mem_max {l : List CandidateFile} {f : CandidateFile}
    (h : selectBest l = some f) : f ∈ l ∧ ∀ x ∈ l, keyLE x f := by
  match l, h with
  | a :: rest, h =>
    have hf : pickBest a rest = f := Option.some.inj h
    have hs := pickBest_spec a rest
    subst hf
    refine ⟨hs.1, ?_⟩
    intro x hx
    rcases List.mem_cons.mp hx with rfl | hx
    · exact hs.2.1
    · exact hs.2.2 x hx

theorem selectBest_unique {l : List CandidateFile} {f g : CandidateFile}
    (hdist : l.Pairwise (fun a b => ¬ sameKey a b))
    (hf : f ∈ l) (hg : g ∈ l)
    (hfmax : ∀ x ∈ l, keyLE x f) (hgmax : ∀ x ∈ l, keyLE x g) : f = g := by
  by_cases heq : f = g
  · exact heq
  · have hsame := sameKey_of_keyLE_antisymm (hgmax f hf) (hfmax g hg)
    have hns := hdist.forall sameKey_symmetric hg hf (fun h => heq h.symm)
    exact absurd ⟨hsame.1.symm, hsame.2.symm⟩ hns

theorem selectBest_perm_invariant {l l' : List CandidateFile}
    (hperm : l.Perm l') (hdist : l.Pairwise (fun a b => ¬ sameKey a b)) :
    selectBest l = selectBest l' := by
  cases l with
  | nil =>
    rw [hperm.symm.eq_nil]
  | cons a t =>
    cases l' with
    | nil =>
      exact absurd hperm.eq_nil (List.cons_ne_nil a t)
    | cons b t' =>
      have hf : selectBest (a :: t) = some (pickBest a t) := rfl
      have hg : selectBest (b :: t') = some (pickBest b t') := rfl
      have h1 := selectBest_mem_max hf
      have h2 := selectBest_mem_max hg
      have hgmem : pickBest b t' ∈ a :: t := hperm.symm.subset h2.1
      have hgmax : ∀ x ∈ a :: t, keyLE x (pickBest b t') := fun x hx =>
        h2.2 x (hperm.subset hx)
      rw [hf, hg, selectBest_unique hdist h1.1 hgmem h1.2 hgmax]

theorem selectBest_eq_none {l : List CandidateFile} (h : selectBest l = none) :
    l = [] := by
  cases l with
  | nil => rfl
  | cons a t => exact absurd h (by simp [selectBest])

/-- C1: whenever the filtered candidate set is non-empty the Resolver emits
`Resolved f` where `f` is a filtered candidate that every filtered
candidate is no later than (latest timestamp, ties broken by the
platform's declared release ordering); and for every permutation of the
candidate list the same result — hence the same winning file — is
selected, provided the tie-break keys of the filtered candidates are
pairwise distinct (the platform's release ordering orders its releases
strictly). -/
theorem resolve_latest_deterministic (candidates : List CandidateFile)
    (c : Constraints) (o : Overrides)
    (hne : candidates.filter (is_compatible · c o) ≠ [])
    (hdist : (candidates.filter (is_compatible · c o)).Pairwise
        (fun a b => ¬ sameKey a b)) :
    (∃ f, resolve candidates c o = .resolved f
        ∧ f ∈ candidates.filter (is_compatible · c o)
        ∧ ∀ g ∈ candidates.filter (is_compatible · c o), keyLE g f)
      ∧ ∀ candidates' : List CandidateFile, candidates.Perm candidates' →
          resolve candidates' c o = resolve candidates c o := by
  constructor
  · cases hsel : selectBest (candidates.filter (is_compatible · c o)) with
    | none => exact absurd (selectBest_eq_none hsel) hne
    | some f =>
      have hmax := selectBest_mem_max hsel
      refine ⟨f, ?_, hmax.1, hmax.2⟩
      unfold resolve
      rw [hsel]
  · intro candidates' hperm
    have hfilter : (candidates.filter (is_compatible · c o)).Perm
        (candidates'.filter (is_compatible · c o)) :=
      hperm.filter _
    unfold resolve
    rw [selectBest_perm_invariant hfilter hdist]

/-- Witness for C1: the profile targets game version 1.20.1 on Fabric;
of two Fabric candidates (timestamps 10 and 5) the later one wins, and
listing the candidates in the opposite order selects the same file. -/
theorem resolve_latest_deterministic_witness :
    (∃ f, resolve
          [{ version_label := "2.0", game_versions := ["1.20.1"],
             loaders := [ModLoader.fabric], download_ref := 2,
             dependencies := [], timestamp := 10, release_order := 1 },
           { version_label := "1.0", game_versions := ["1.20.1"],
             loaders := [ModLoader.fabric], download_ref := 1,
             dependencies := [], timestamp := 5, release_order := 0 }]
          { game_version := "1.20.1", mod_loader := ModLoader.fabric }
          { skip_game_version_check := false, skip_loader_check := false }
          = .resolved f
        ∧ f ∈ List.filter
            (is_compatible ·
              { game_version := "1.20.1", mod_loader := ModLoader.fabric }
              { skip_game_version_check := false, skip_loader_check := false })
            [{ version_label := "2.0", game_versions := ["1.20.1"],
               loaders := [ModLoader.fabric], download_ref := 2,
               dependencies := [], timestamp := 10, release_order := 1 },
             { version_label := "1.0", game_versions := ["1.20.1"],
               loaders := [ModLoader.fabric], download_ref := 1,
               dependencies := [], timestamp := 5, release_order := 0 }]
        ∧ ∀ g ∈ List.filter
            (is_compatible ·
              { game_version := "1.20.1", mod_loader := ModLoader.fabric }
              { skip_game_version_check := false, skip_loader_check := false })
            [{ version_label := "2.0", game_versions := ["1.20.1"],
               loaders := [ModLoader.fabric], download_ref := 2,
               dependencies := [], timestamp := 10, release_order := 1 },
             { version_label := "1.0", game_versions := ["1.20.1"],
               loaders := [ModLoader.fabric], download_ref := 1,
               dependencies := [], timestamp := 5, release_order := 0 }],
            keyLE g f)
      ∧ ∀ candidates' : List CandidateFile,
          List.Perm
            [{ version_label := "2.0", game_versions := ["1.20.1"],
               loaders := [ModLoader.fabric], download_ref := 2,
               dependencies := [], timestamp := 10, release_order := 1 },
             { version_label := "1.0", game_versions := ["1.20.1"],
               loaders := [ModLoader.fabric], download_ref := 1,
               dependencies := [], timestamp := 5, release_order := 0 }]
            candidates' →
          resolve candidates'
              { game_version := "1.20.1", mod_loader := ModLoader.fabric }
              { skip_game_version_check := false, skip_loader_check := false }
            = resolve
              [{ version_label := "2.0", game_versions := ["1.20.1"],
                 loaders := [ModLoader.fabric], download_ref := 2,
                 dependencies := [], timestamp := 10, release_order := 1 },
               { version_label := "1.0", game_versions := ["1.20.1"],
                 loaders := [ModLoader.fabric], download_ref := 1,
                 dependencies := [], timestamp := 5, release_order := 0 }]
              { game_version := "1.20.1", mod_loader := ModLoader.fabric }
              { skip_game_version_check := false, skip_loader_check := false } :=
  resolve_latest_deterministic _ _ _ (by decide) (by decide)

theorem isPlatformError_resolveMod (c : Constraints) (m : ModEntry) :
    isPlatformError (resolveMod c m) = isErr m.fetch := by
  match m with
  | ⟨o, .err d⟩ => rfl
  | ⟨o, .ok files⟩ =>
    show isPlatformError (resolve files c o) = false
    unfold resolve
    cases selectBest (files.filter (is_compatible · c o)) <;> rfl

theorem countP_add_countP_neg {α : Type} (p : α → Bool) (l : List α) :
    l.countP p + l.countP (fun a => !p a) = l.length := by
  induction l with
  | nil => rfl
  | cons a t ih =>
    by_cases h : p a = true <;> simp [List.countP_cons, h] <;> omega

/-- C3: per-mod failure isolation — in a batch of `N` mods where exactly
one mod's platform call fails and every other mod resolves successfully,
the run yields an outcome for every mod (`N` outcomes, never aborting
early), exactly one of which is a `PlatformError` and `N - 1` of which are
successful resolutions; no per-mod failure escapes as a fatal batch
error. -/
theorem runBatch_failure_isolation (c : Constraints) (mods : List ModEntry)
    (hone : mods.countP (fun m => isErr m.fetch) = 1)
    (hhealthy : ∀ m ∈ mods, isErr m.fetch = false →
        isResolvedOutcome (resolveMod c m) = true) :
    (runBatch c mods).length = mods.length
      ∧ (runBatch c mods).countP isPlatformError = 1
      ∧ (runBatch c mods).countP isResolvedOutcome = mods.length - 1 := by
  refine ⟨List.length_map _ _, ?_, ?_⟩
  · unfold runBatch
    rw [List.countP_map]
    calc mods.countP (isPlatformError ∘ resolveMod c)
        = mods.countP (fun m => isErr m.fetch) :=
          List.countP_congr (fun m _ => by
            simp [Function.comp, isPlatformError_resolveMod])
      _ = 1 := hone
  · unfold runBatch
    rw [List.countP_map]
    have hpoint : ∀ m ∈ mods,
        (isResolvedOutcome ∘ resolveMod c) m = (!isErr m.fetch) := by
      intro m hm
      by_cases he : isErr m.fetch = true
      · have : isPlatformError (resolveMod c m) = true := by
          rw [isPlatformError_resolveMod, he]
        simp only [Function.comp, he, Bool.not_true]
        cases hr : resolveMod c m <;> simp_all [isPlatformError, isResolvedOutcome]
      · have he' : isErr m.fetch = false := Bool.eq_false_iff.mpr he
        simp only [Function.comp, he', Bool.not_false]
        exact hhealthy m hm he'
    calc mods.countP (isResolvedOutcome ∘ resolveMod c)
        = mods.countP (fun m => !isErr m.fetch) :=
          List.countP_congr (fun m hm => by rw [hpoint m hm])
      _ = mods.length - 1 := by
          have hsum := countP_add_countP_neg (fun m => isErr m.fetch) mods
          omega

/-- Witness for C3: in the three-mod batch with one failed platform call,
the run yields three outcomes: one platform error and two resolutions. -/
theorem runBatch_failure_isolation_witness :
    (runBatch exConstraints exBatch).length = exBatch.length
      ∧ (runBatch exConstraints exBatch).countP isPlatformError = 1
      ∧ (runBatch exConstraints exBatch).countP isResolvedOutcome
          = exBatch.length - 1 :=
  runBatch_failure_isolation exConstraints exBatch (by decide) (by decide)

theorem mem_map_name {resolved : List Artifact} {p : String × List Nat}
    (h : p ∈ resolved.map (fun a => (a.name, a.bytes))) :
    (resolved.map (·.name)).contains p.1 = true := by
  rcases List.mem_map.mp h with ⟨a, ha, rfl⟩
  simp only [List.contains_eq_any_beq, List.any_eq_true]
  exact ⟨a.name, List.mem_map.mpr ⟨a, ha, rfl⟩, by simp⟩

/-- C4: Installer idempotence — for every resolved set and directory
state, running the upgrade twice in a row leaves the directory (files and
manifest) byte-identical to the state after the first run, and the second
run reports the same resolved versions as the first. -/
theorem upgradeRun_idempotent (resolved : List Artifact) (s : DirState) :
    upgradeRun resolved (upgradeRun resolved s).1 = upgradeRun resolved s := by
  have hR0 : (resolved.map (fun a => (a.name, a.bytes))).filter
      (fun p => !(resolved.map (·.name)).contains p.1) = [] := by
    apply List.filter_eq_nil_iff.mpr
    intro p hp
    rw [mem_map_name hp]
    simp
  have hRkeep : (resolved.map (fun a => (a.name, a.bytes))).filter
      (fun p => (resolved.map (·.name)).contains p.1 || !s.manifest.contains p.1)
        = resolved.map (fun a => (a.name, a.bytes)) := by
    apply List.filter_eq_self.mpr
    intro p hp
    rw [mem_map_name hp]
    simp
  have hclean2 : ∀ l : List (String × List Nat),
      l.filter (fun p => (resolved.map (·.name)).contains p.1
          || !(resolved.map (·.name)).contains p.1) = l := by
    intro l
    apply List.filter_eq_self.mpr
    intro p _
    by_cases hc : (resolved.map (·.name)).contains p.1 = true <;> simp [hc]
  have hX : ((s.files.filter (fun p => !(resolved.map (·.name)).contains p.1)).filter
        (fun p => (resolved.map (·.name)).contains p.1 || !s.manifest.contains p.1)).filter
        (fun p => !(resolved.map (·.name)).contains p.1)
      = (s.files.filter (fun p => !(resolved.map (·.name)).contains p.1)).filter
        (fun p => (resolved.map (·.name)).contains p.1 || !s.manifest.contains p.1) := by
    apply List.filter_eq_self.mpr
    intro p hp
    exact (List.mem_filter.mp (List.mem_filter.mp hp).1).2
  unfold upgradeRun
  simp only [Prod.mk.injEq, DirState.mk.injEq]
  refine ⟨⟨?_, trivial⟩, trivial⟩
  simp only [List.filter_append]
  rw [hRkeep, hR0, hX]
  simp [hclean2]

/-- C6: stale-file cleanup frame condition — after a run, (a) every file
whose name is not in the current resolved set but was recorded in the
manifest as installed by a prior run is removed; (b) every file whose name
is neither in the resolved set nor in the manifest (a file the tool did
not create) is present afterward exactly as before, untouched; (c) every
resolved artifact is present afterward. -/
theorem upgradeRun_cleanup_frame (resolved : List Artifact) (s : DirState)
    (n : String) (b : List Nat)
    (hnotnew : (resolved.map (·.name)).contains n = false) :
    (s.manifest.contains n = true →
        (n, b) ∉ ((upgradeRun resolved s).1).files)
      ∧ (s.manifest.contains n = false →
          ((n, b) ∈ ((upgradeRun resolved s).1).files ↔ (n, b) ∈ s.files))
      ∧ ∀ a ∈ resolved, (a.name, a.bytes) ∈ ((upgradeRun resolved s).1).files := by
  unfold upgradeRun
  simp only
  refine ⟨?_, ?_, ?_⟩
  · intro hman hmem
    have h2 := (List.mem_filter.mp hmem).2
    simp only [hnotnew, hman] at h2
    simp at h2
  · intro hman
    constructor
    · intro hmem
      have h1 := (List.mem_filter.mp hmem).1
      rcases List.mem_append.mp h1 with h | h
      · exact (List.mem_filter.mp h).1
      · rw [mem_map_name h] at hnotnew
        cases hnotnew
    · intro hmem
      apply List.mem_filter.mpr
      refine ⟨List.mem_append.mpr (Or.inl ?_), ?_⟩
      · refine List.mem_filter.mpr ⟨hmem, ?_⟩
        show (!(resolved.map (·.name)).contains (n, b).1) = true
        rw [hnotnew]
        rfl
      · show ((resolved.map (·.name)).contains (n, b).1
            || !s.manifest.contains (n, b).1) = true
        rw [hnotnew, hman]
        rfl
  · intro a ha
    apply List.mem_filter.mpr
    constructor
    · exact List.mem_append.mpr (Or.inr (List.mem_map.mpr ⟨a, ha, rfl⟩))
    · rw [mem_map_name (List.mem_map.mpr ⟨a, ha, rfl⟩)]
      simp

/-- Witness for C6 on the §8 scenario: after the run `mod-1.0.jar` (stale,
tool-installed) is gone, the user's file is untouched, and `mod-2.0.jar`
is present. -/
theorem upgradeRun_cleanup_frame_witness :
    ((exOldDir.manifest.contains ("mod-1.0.jar") = true →
        ("mod-1.0.jar", [1]) ∉ ((upgradeRun [exNewArtifact] exOldDir).1).files)
      ∧ (exOldDir.manifest.contains ("mod-1.0.jar") = false →
          (("mod-1.0.jar", [1]) ∈ ((upgradeRun [exNewArtifact] exOldDir).1).files
            ↔ ("mod-1.0.jar", [1]) ∈ exOldDir.files))
      ∧ ∀ a ∈ [exNewArtifact],
          (a.name, a.bytes) ∈ ((upgradeRun [exNewArtifact] exOldDir).1).files)
    ∧ (exOldDir.manifest.contains ("user-config.txt") = false →
        (("user-config.txt", [9]) ∈ ((upgradeRun [exNewArtifact] exOldDir).1).files
          ↔ ("user-config.txt", [9]) ∈ exOldDir.files)) :=
  ⟨upgradeRun_cleanup_frame [exNewArtifact] exOldDir ("mod-1.0.jar") [1] (by decide),
   (upgradeRun_cleanup_frame [exNewArtifact] exOldDir ("user-config.txt") [9]
      (by decide)).2.1⟩

/-- C5: the store always keeps at least one profile — deleting the sole
remaining profile fails with `LastRemaining` and leaves the store
unchanged, still containing exactly that profile; and `create`, `switch`,
`configure` and a successful `delete` all preserve the
at-least-one-profile invariant. -/
theorem store_at_least_one_profile :
    (∀ (p : Profile) (s : Store), s.profiles = [p] →
        try_delete p.name s = (s, some .lastRemaining)
          ∧ (try_delete p.name s).1.profiles = [p])
      ∧ (∀ (s : Store) (p : Profile), s.profiles ≠ [] →
          (create p s).profiles ≠ [])
      ∧ (∀ (s s' : Store) (name : String), switch name s = .ok s' →
          s.profiles ≠ [] → s'.profiles ≠ [])
      ∧ (∀ (s : Store) (gv : Option String) (ml : Option ModLoader)
            (nm : Option String) (od : Option String), s.profiles ≠ [] →
          (configure_store s gv ml nm od).profiles ≠ [])
      ∧ (∀ (s s' : Store) (name : String), delete name s = .ok s' →
          s'.profiles ≠ []) := by
  refine ⟨?_, ?_, ?_, ?_, ?_⟩
  · intro p s hs
    have hdel : delete p.name s = .error .lastRemaining := by
      unfold delete
      rw [hs]
      simp
    constructor
    · unfold try_delete
      rw [hdel]
    · unfold try_delete
      rw [hdel, hs]
  · intro s p _
    unfold create
    simp
  · intro s s' name hok hne
    unfold switch at hok
    by_cases hany : s.profiles.any (fun p => p.name == name) = true
    · rw [if_pos hany] at hok
      cases hok
      intro hnil
      exact hne hnil
    · rw [if_neg hany] at hok
      cases hok
  · intro s gv ml nm od hne
    unfold configure_store
    simp only
    intro hnil
    exact hne (List.map_eq_nil_iff.mp hnil)
  · intro s s' name hok
    unfold delete at hok
    by_cases hany : s.profiles.any (fun p => p.name == name) = true
    · rw [if_pos hany] at hok
      by_cases hlen : (s.profiles.length == 1) = true
      · rw [if_pos hlen] at hok
        cases hok
      · rw [if_neg hlen] at hok
        cases hok
        rcases List.any_eq_true.mp hany with ⟨x, hx, hpx⟩
        have herase :=
          List.length_eraseP_of_mem (p := fun q => q.name == name) hx hpx
        have hlen1 : s.profiles.length ≠ 1 := by
          intro h
          rw [h] at hlen
          exact hlen rfl
        have hpos : 0 < s.profiles.length := List.length_pos.mpr
          (List.ne_nil_of_mem hx)
        intro hnil
        have hnil' : s.profiles.eraseP (fun p => p.name == name) = [] := hnil
        rw [hnil'] at herase
        simp at herase
        omega
    · rw [if_neg hany] at hok
      cases hok

/-- Witness for C5: deleting the sole profile of a one-profile store
fails with `LastRemaining`, leaving that profile in place; deleting `B`
from a two-profile store succeeds and leaves a non-empty store. -/
theorem store_at_least_one_profile_witness :
    (try_delete exProfileA.name exStore1 = (exStore1, some .lastRemaining)
        ∧ (try_delete exProfileA.name exStore1).1.profiles = [exProfileA])
      ∧ ({ profiles := [exProfileA], active := "A" } : Store).profiles ≠ [] :=
  ⟨store_at_least_one_profile.1 exProfileA exStore1 rfl,
   store_at_least_one_profile.2.2.2.2 exStore2
     { profiles := [exProfileA], active := "A" } "B" (by rfl)⟩

/-- C8: `configure` is a partial-field update — for every profile and
every combination of supplied settings, each field supplied as `some v`
becomes `v`, each field supplied as `none` retains its previous value,
the profile's mod list is always unchanged, and supplying nothing leaves
the profile identical. -/
theorem configure_partial_field_update (p : Profile) (gv : Option String)
    (ml : Option ModLoader) (nm : Option String) (od : Option String) :
    (configure_profile p gv ml nm od).mods = p.mods
      ∧ (gv = none →
          (configure_profile p gv ml nm od).game_version = p.game_version)
      ∧ (ml = none →
          (configure_profile p gv ml nm od).mod_loader = p.mod_loader)
      ∧ (nm = none → (configure_profile p gv ml nm od).name = p.name)
      ∧ (od = none →
          (configure_profile p gv ml nm od).output_dir = p.output_dir)
      ∧ (∀ v, gv = some v →
          (configure_profile p gv ml nm od).game_version = v)
      ∧ (∀ v, ml = some v →
          (configure_profile p gv ml nm od).mod_loader = v)
      ∧ (∀ v, nm = some v → (configure_profile p gv ml nm od).name = v)
      ∧ (∀ v, od = some v →
          (configure_profile p gv ml nm od).output_dir = v)
      ∧ configure_profile p none none none none = p := by
  refine ⟨rfl, ?_, ?_, ?_, ?_, ?_, ?_, ?_, ?_, ?_⟩
  · intro h
    rw [h]
    rfl
  · intro h
    rw [h]
    rfl
  · intro h
    rw [h]
    rfl
  · intro h
    rw [h]
    rfl
  · intro v h
    rw [h]
    rfl
  · intro v h
    rw [h]
    rfl
  · intro v h
    rw [h]
    rfl
  · intro v h
    rw [h]
    rfl
  · rfl

/-- Witness for C8: configuring profile `A` with only a new game version
changes that field to the supplied value, keeps the mod loader, and keeps
the mod list. -/
theorem configure_partial_field_update_witness :
    (configure_profile exProfileA (some ("1.20.4")) none none none).mods
        = exProfileA.mods
      ∧ (configure_profile exProfileA (some ("1.20.4")) none none none).mod_loader
          = exProfileA.mod_loader
      ∧ (configure_profile exProfileA (some ("1.20.4")) none none none).game_version
          = "1.20.4" :=
  ⟨(configure_partial_field_update exProfileA (some ("1.20.4")) none none none).1,
   (configure_partial_field_update exProfileA (some ("1.20.4")) none none none).2.2.1
     rfl,
   (configure_partial_field_update exProfileA
       (some ("1.20.4")) none none none).2.2.2.2.2.1 ("1.20.4") rfl⟩

theorem find?_eq_some_of_unique {α : Type} (p : α → Bool) (a : α) :
    ∀ l : List α, a ∈ l → p a = true → (∀ x ∈ l, p x = true → x = a) →
      l.find? p = some a := by
  intro l
  induction l with
  | nil =>
    intro ha _ _
    cases ha
  | cons b t ih =>
    intro ha hpa huniq
    by_cases hb : p b = true
    · rw [List.find?_cons_of_pos _ hb]
      exact congrArg some (huniq b (List.mem_cons_self b t) hb)
    · rw [List.find?_cons_of_neg _ hb]
      apply ih
      · rcases List.mem_cons.mp ha with h | h
        · rw [h] at hpa
          exact absurd hpa hb
        · exact h
      · exact hpa
      · intro x hx hpx
        exact huniq x (List.mem_cons_of_mem _ hx) hpx

theorem range_filterMap_getElem {α : Type} (l : List α) :
    (List.range l.length).filterMap (fun i => l[i]?) = l := by
  induction l with
  | nil => rfl
  | cons a t ih =>
    simp only [List.length_cons, List.range_succ_eq_map, List.filterMap_cons,
      List.getElem?_cons_zero, List.filterMap_map]
    have hshift : ∀ i ∈ List.range t.length,
        ((fun i => (a :: t)[i]?) ∘ (· + 1)) i = t[i]? := by
      intro i _
      simp [List.getElem?_cons_succ]
    rw [List.filterMap_congr hshift, ih]

/-- C7: report ordering — for every outcome list in the profile's stored
mod order and every completion order of the concurrent workers (any
permutation of the index-tagged outcomes), collecting the completed
results back into canonical order reproduces exactly the stored order. -/
theorem collectInOrder_canonical {α : Type} (results : List α)
    (completed : List (Nat × α))
    (hperm : completed.Perm (tagWithIndex results)) :
    collectInOrder completed results.length = results := by
  have hfind : ∀ i (hlt : i < results.length),
      completed.find? (fun q => q.1 == i) = some (i, results[i]) := by
    intro i hlt
    apply find?_eq_some_of_unique
    · apply hperm.mem_iff.mpr
      apply List.mem_enum_iff_getElem?.mpr
      exact List.getElem?_eq_getElem hlt
    · simp
    · intro x hx hpx
      obtain ⟨x1, x2⟩ := x
      have hx1 : x1 = i := by simpa using hpx
      subst hx1
      have hx' : results[x1]? = some x2 :=
        List.mem_enum_iff_getElem?.mp (hperm.subset hx)
      rw [List.getElem?_eq_getElem hlt] at hx'
      rw [Option.some.inj hx']
  unfold collectInOrder
  have hcongr : ∀ i ∈ List.range results.length,
      (completed.find? (fun q => q.1 == i)).map (·.2) = results[i]? := by
    intro i hi
    have hlt := List.mem_range.mp hi
    rw [hfind i hlt, List.getElem?_eq_getElem hlt]
    rfl
  rw [List.filterMap_congr hcongr]
  exact range_filterMap_getElem results

/-- Witness for C7: two outcomes completed in reverse order are reported
back in the profile's stored order. -/
theorem collectInOrder_canonical_witness :
    collectInOrder [(1, "mod-b resolved"), (0, "mod-a resolved")]
        ["mod-a resolved", "mod-b resolved"].length
      = ["mod-a resolved", "mod-b resolved"] :=
  collectInOrder_canonical ["mod-a resolved", "mod-b resolved"]
    [(1, "mod-b resolved"), (0, "mod-a resolved")] (by decide)

/-- C9: the `profile create` import setting distinguishes three states at
the public interface, all accepted by the parser: flag absent maps to
`none`, flag present without a name to `some none`, and flag present with
a name to `some (some name)`; absent and present-without-name are
distinct values and yield distinct `create` commands, not conflated. -/
theorem create_import_three_states :
    parseImportFlag [] = some none
      ∧ parseImportFlag ["--import"] = some (some none)
      ∧ (∀ s : String, parseImportFlag ["--import", s] = some (some (some s)))
      ∧ (some none : Option (Option String)) ≠ none
      ∧ (∀ s : String, (some (some s) : Option (Option String)) ≠ none
          ∧ (some (some s) : Option (Option String)) ≠ some none)
      ∧ ∀ (gv : Option String) (ml : Option ModLoader) (nm od : Option String),
          ProfileSubCommands.create none gv ml nm od
            ≠ ProfileSubCommands.create (some none) gv ml nm od := by
  refine ⟨rfl, rfl, fun s => rfl, by simp, fun s => ⟨by simp, by simp⟩, ?_⟩
  intro gv ml nm od h
  cases h

/-- C10: `remove` has no minimum arity — every list of zero or more mod
names is accepted by the parser; in particular `remove` with no names at
all is a valid invocation. -/
theorem remove_accepts_any_arity :
    (∀ names : List String,
        parseRemoveCmd ("remove" :: names) = some (SubCommands.remove names))
      ∧ parseRemoveCmd ["remove"] = some (SubCommands.remove []) :=
  ⟨fun _ => rfl, rfl⟩

/-- Witness for C4: upgrading the §8 scenario twice with the same
resolved artifact leaves directory, manifest and report identical to the
first run. -/
theorem upgradeRun_idempotent_witness :
    upgradeRun [exNewArtifact] (upgradeRun [exNewArtifact] exOldDir).1
      = upgradeRun [exNewArtifact] exOldDir :=
  upgradeRun_idempotent [exNewArtifact] exOldDir

/-- Witness for C9: a concrete named import parses to `some (some name)`,
and the flag-absent and bare-flag create commands are distinct. -/
theorem create_import_three_states_witness :
    parseImportFlag ["--import", "base"] = some (some (some ("base")))
      ∧ ProfileSubCommands.create none none none none none
          ≠ ProfileSubCommands.create (some none) none none none none :=
  ⟨create_import_three_states.2.2.1 ("base"),
   create_import_three_states.2.2.2.2.2 none none none none⟩

/-- Witness for C10: the bare `remove` invocation, with zero names, is
accepted. -/
theorem remove_accepts_any_arity_witness :
    parseRemoveCmd ["remove"] = some (SubCommands.remove []) :=
  remove_accepts_any_arity.2

end Ferium
